import Mathlib

/-!
Shallow embedding of `src/valida_cnpj_receita.py`.

Python values that can occur in a parsed JSON response body and in the
record dictionaries built by `consultar_receita` are modelled by `PyVal`.
Spreadsheet cells are modelled by the text `str(cell)` the program computes
from them: every use the program makes of a cell goes through `str`, and the
two traversals of the table (extraction and reconciliation) visit the same
cells in the same row-major order, so the table is modelled as the flat list
of those texts.

Python expressions that can raise (`dict.get` on a non-dict, `.lower()` on a
non-string, `x in s` with a non-string left operand) are modelled in
`Except String`, the error being the exception's message.
-/

inductive PyVal : Type where
  | null : PyVal
  | str : String → PyVal
  | num : Int → PyVal
  | bool : Bool → PyVal
  | arr : List PyVal → PyVal
  | obj : List (String × PyVal) → PyVal

/-- Python truthiness of a value (`bool(v)`). -/
def truthy : PyVal → Bool
  | .null => false
  | .str s => !s.isEmpty
  | .num n => n != 0
  | .bool b => b
  | .arr xs => !xs.isEmpty
  | .obj kvs => !kvs.isEmpty

/-- Python `a or b` on values already evaluated (both operands effect-free). -/
def pyOr (a b : PyVal) : PyVal := if truthy a then a else b

mutual

/-- Python `repr(v)` (approximating string-escaping inside containers). -/
def pyRepr : PyVal → String
  | .null => "None"
  | .str s => "\x27" ++ s ++ "\x27"
  | .num n => toString n
  | .bool b => if b then "True" else "False"
  | .arr xs => "[" ++ String.intercalate ", " (pyReprList xs) ++ "]"
  | .obj kvs => "\x7b" ++ String.intercalate ", " (pyReprObj kvs) ++ "\x7d"

def pyReprList : List PyVal → List String
  | [] => []
  | v :: vs => pyRepr v :: pyReprList vs

def pyReprObj : List (String × PyVal) → List String
  | [] => []
  | (k, v) :: kvs => ("\x27" ++ k ++ "\x27: " ++ pyRepr v) :: pyReprObj kvs

end

/-- Python `str(v)`: the string itself for a string, `repr` otherwise. -/
def pyStr : PyVal → String
  | .str s => s
  | v => pyRepr v

/-- The Python type name of a value, for `AttributeError` messages. -/
def typeName : PyVal → String
  | .null => "NoneType"
  | .str _ => "str"
  | .num _ => "int"
  | .bool _ => "bool"
  | .arr _ => "list"
  | .obj _ => "dict"

/-- The message of the `AttributeError` raised by `v.get(...)` on a
non-dict `v`. -/
def noGetMsg (v : PyVal) : String :=
  "\x27" ++ typeName v ++ "\x27 object has no attribute \x27get\x27"

/-- Python `v.get(k, dflt)`: the value under `k` when `v` is a dict holding
it, the default when `v` is a dict without it, and an `AttributeError` when
`v` is not a dict. -/
def dictGet (v : PyVal) (k : String) (dflt : PyVal) : Except String PyVal :=
  match v with
  | .obj kvs => .ok ((kvs.lookup k).getD dflt)
  | _ => .error (noGetMsg v)

/-- The record dictionary `consultar_receita` returns.  Its four keys
(`"CNPJ"`, `"Razão Social (Receita)"`, `"Município (Receita)"`,
`"Situação Cadastral"`) are present in every branch of the source, so the
main loop's `receita.get(key, "")` calls always find them and the dictionary
is modelled as a structure. -/
structure Registro : Type where
  cnpj : PyVal
  razaoSocial : PyVal
  municipio : PyVal
  situacao : PyVal

/-- The record built in the `except Exception as e` handler:
`{"CNPJ": cnpj or "", ..., "Situação Cadastral": f"Erro: {str(e)}"}`. -/
def erroRegistro (cnpj : String) (msg : String) : Registro :=
  { cnpj := pyOr (.str cnpj) (.str "")
    razaoSocial := .str ""
    municipio := .str ""
    situacao := .str ("Erro: " ++ msg) }

/-- `dados.get("estabelecimento", {}).get("cidade", {}).get("nome", "")
or dados.get("municipio", "") or ""`, with Python's left-to-right
short-circuit evaluation. -/
def getMunicipio (dados : PyVal) : Except String PyVal := do
  let est ← dictGet dados "estabelecimento" (.obj [])
  let cid ← dictGet est "cidade" (.obj [])
  let nome ← dictGet cid "nome" (.str "")
  if truthy nome then
    return nome
  else
    let mun ← dictGet dados "municipio" (.str "")
    if truthy mun then return mun else return (.str "")

/-- The body of the `status_code == 200` branch of `consultar_receita`,
applied to the already-parsed JSON value `dados`; an `AttributeError` from a
`.get` on a non-dict propagates to the caller's exception handler. -/
def parse200 (cnpj : String) (dados : PyVal) : Except String Registro := do
  let municipio ← getMunicipio dados
  let razao ← dictGet dados "razao_social" (.str "")
  let situacao ← dictGet dados "descricao_situacao_cadastral" (.str "Ativo")
  return { cnpj := pyOr (.str cnpj) (.str "")
           razaoSocial := pyOr razao (.str "")
           municipio := municipio
           situacao := pyOr situacao (.str "") }

/-- The body of an HTTP response: either JSON that parsed to a value, or a
body on which `resposta.json()` raises with the given message. -/
inductive Corpo : Type where
  | parsed : PyVal → Corpo
  | malformado : String → Corpo

structure Resposta : Type where
  status_code : Nat
  corpo : Corpo

/-- Outcome of `requests.get(url, timeout=10)`: a response, or an exception
(timeout, connection error) with the given message. -/
inductive NetResult : Type where
  | resp : Resposta → NetResult
  | exn : String → NetResult

/-- `consultar_receita(cnpj)` with the network's behaviour passed in as
`net`.  All exceptions raised by the call or the parse are caught by the
`try`/`except` and turned into `erroRegistro`. -/
def consultar_receita (cnpj : String) (net : NetResult) : Registro :=
  match net with
  | .exn e => erroRegistro cnpj e
  | .resp r =>
    if r.status_code = 200 then
      match r.corpo with
      | .malformado e => erroRegistro cnpj e
      | .parsed dados =>
        match parse200 cnpj dados with
        | .ok reg => reg
        | .error e => erroRegistro cnpj e
    else
      { cnpj := pyOr (.str cnpj) (.str "")
        razaoSocial := .str ""
        municipio := .str ""
        situacao := .str "Não encontrado na Receita" }

/-- The character classes of the pattern
`\d{2}\.\d{3}\.\d{3}/\d{4}-\d{2}`, one predicate per character of a match
(the pattern is fixed-length: 18 characters). -/
def padraoCNPJ : List (Char → Bool) :=
  [Char.isDigit, Char.isDigit, (· == '.'), Char.isDigit, Char.isDigit,
   Char.isDigit, (· == '.'), Char.isDigit, Char.isDigit, Char.isDigit,
   (· == '/'), Char.isDigit, Char.isDigit, Char.isDigit, Char.isDigit,
   (· == '-'), Char.isDigit, Char.isDigit]

/-- Whether the text starts with a match of the pattern (further characters
may follow). -/
def matchesAt : List (Char → Bool) → List Char → Bool
  | [], _ => true
  | _ :: _, [] => false
  | p :: ps, c :: cs => p c && matchesAt ps cs

/-- `re.findall` for the fixed-length pattern: scan left to right, take the
leftmost match, continue after its end (non-overlapping).  The scan consumes
at least one character per step, so running it with `fuel = cs.length` (as
`findAllCNPJ` does) never exhausts the fuel; the fuel only makes the
recursion structural. -/
def findAllAux : Nat → List Char → List String
  | 0, _ => []
  | _ + 1, [] => []
  | fuel + 1, c :: resto =>
    if matchesAt padraoCNPJ (c :: resto) then
      String.mk ((c :: resto).take 18) :: findAllAux fuel ((c :: resto).drop 18)
    else
      findAllAux fuel resto

def findAllCNPJ (cs : List Char) : List String := findAllAux cs.length cs

/-- `extrair_cnpj(texto)`: `re.findall` of the pattern over `str(texto)`
(the argument is the textual representation of the cell). -/
def extrair_cnpj (texto : String) : List String := findAllCNPJ texto.data

/-- A string of exactly the shape `DD.DDD.DDD/DDDD-DD`. -/
def formatoCNPJ (s : String) : Bool :=
  s.data.length == 18 && matchesAt padraoCNPJ s.data

/-- `ms` occur inside `cs` as pairwise disjoint segments, in the given
left-to-right order. -/
inductive EmOrdem : List Char → List String → Prop where
  | nil (cs : List Char) : EmOrdem cs []
  | cons (pre : List Char) (m : String) (resto : List Char) (ms : List String) :
      EmOrdem resto ms → EmOrdem (pre ++ m.data ++ resto) (m :: ms)

/-- `ms` is the COMPLETE left-to-right non-overlapping scan of `cs` for the
pattern: each listed match is the leftmost match of the pattern in the text
remaining after the end of the previous match (no pattern occurrence starts
before it), and the text after the last listed match holds no further
occurrence at any position.  This pins the output down to exactly
`re.findall`'s result: a list that omits a later disjoint occurrence cannot
satisfy the `nil` case on the remaining text, and `varredura_unica` shows
the relation determines `ms` uniquely from `cs`. -/
inductive VarreduraCompleta : List Char → List String → Prop where
  | nil (cs : List Char) :
      (∀ i, matchesAt padraoCNPJ (cs.drop i) = false) →
      VarreduraCompleta cs []
  | cons (pre : List Char) (m : String) (resto : List Char) (ms : List String) :
      (∀ i, i < pre.length →
        matchesAt padraoCNPJ ((pre ++ m.data ++ resto).drop i) = false) →
      formatoCNPJ m = true →
      VarreduraCompleta resto ms →
      VarreduraCompleta (pre ++ m.data ++ resto) (m :: ms)

/-- The extraction loop over the whole table: `cnpjs_encontrados` collects
`extrair_cnpj(celula)` for every cell in order (`if cnpjs:` before `extend`
only skips empty lists, which changes nothing). -/
def cnpjs_encontrados (cells : List String) : List String :=
  (cells.map extrair_cnpj).flatten

/-- `cnpjs_unicos = list(set(cnpjs_encontrados))`.  A Python `set` iterates
in an unspecified order; the model fixes one deduplicated order, and no
claim depends on which order it is. -/
def cnpjs_unicos (cells : List String) : List String :=
  (cnpjs_encontrados cells).dedup

/-- Python `str.lower()` character by character (`String.toLower`, written
over the character list so that it evaluates by reduction). -/
def lowerStr (s : String) : String := String.mk (s.data.map Char.toLower)

/-- Python `v.lower()`: lower-cased string, or an `AttributeError` when the
value is not a string. -/
def pyLower (v : PyVal) : Except String String :=
  match v with
  | .str s => .ok (lowerStr s)
  | v => .error ("\x27" ++ typeName v ++ "\x27 object has no attribute \x27lower\x27")

/-- Python `v in hay` with `hay` a string: substring test, a `TypeError`
when `v` is not a string. -/
def pyInStr (v : PyVal) (hay : String) : Except String Bool :=
  match v with
  | .str s => .ok (decide (s.data <:+: hay.data))
  | _ => .error "TypeError: in <string> requires string as left operand"

/-- Python `any(f(x) for x in xs)`: short-circuits on the first `True`; an
exception raised while evaluating `f` propagates. -/
def pyAny {α : Type} (f : α → Except String Bool) : List α → Except String Bool
  | [] => .ok false
  | a :: resto => do
    if (← f a) then return true else pyAny f resto

/-- `cnpj_confere = any(cnpj_receita in str(celula) for celula in ...)` —
note: no emptiness guard on `cnpj_receita`. -/
def cnpj_confere (cells : List String) (cnpj_receita : PyVal) : Except String Bool :=
  pyAny (fun celula => pyInStr cnpj_receita celula) cells

/-- `razao_confere = any(razao_receita.lower() in str(celula).lower() ...)
if razao_receita else False`.  `.lower()` is evaluated inside the generator,
so it runs (and can raise) only when there is at least one cell. -/
def razao_confere (cells : List String) (razao_receita : PyVal) : Except String Bool :=
  if truthy razao_receita then
    pyAny (fun celula => do
      let r ← pyLower razao_receita
      pure (decide (r.data <:+: (lowerStr celula).data))) cells
  else
    pure false

/-- `municipio_confere`, same shape as `razao_confere`. -/
def municipio_confere (cells : List String) (municipio_receita : PyVal) :
    Except String Bool :=
  if truthy municipio_receita then
    pyAny (fun celula => do
      let m ← pyLower municipio_receita
      pure (decide (m.data <:+: (lowerStr celula).data))) cells
  else
    pure false

/-- One report row: a `{"Informação": ..., "Confere": ...}` dictionary. -/
structure Linha : Type where
  informacao : String
  confere : String
  deriving DecidableEq

/-- One iteration of the main loop: the three containment checks followed by
the four `resultados.append(...)` calls, for one identifier's record. -/
def processa (cells : List String) (receita : Registro) :
    Except String (List Linha) := do
  let cnpjR := receita.cnpj
  let razaoR := receita.razaoSocial
  let municipioR := receita.municipio
  let situacaoR := receita.situacao
  let cc ← cnpj_confere cells cnpjR
  let rc ← razao_confere cells razaoR
  let mc ← municipio_confere cells municipioR
  return [{ informacao := "CNPJ: " ++ pyStr cnpjR
            confere := if cc then "Sim" else "Não" },
          { informacao := "Razão Social: " ++ pyStr (pyOr razaoR (.str "-"))
            confere := if rc then "Sim" else "Não" },
          { informacao := "Município: " ++ pyStr (pyOr municipioR (.str "-"))
            confere := if mc then "Sim" else "Não" },
          { informacao := "Situação Cadastral: " ++ pyStr (pyOr situacaoR (.str "-"))
            confere := "" }]

/-- The main loop over a list of identifiers, appending each identifier's
four rows in processing order. -/
def processaLista (cells : List String) (net : String → NetResult) :
    List String → Except String (List Linha)
  | [] => .ok []
  | cnpj :: resto => do
    let linhas ← processa cells (consultar_receita cnpj (net cnpj))
    let demais ← processaLista cells net resto
    return linhas ++ demais

/-- The full `resultados` table of the run: the main loop over
`cnpjs_unicos`, with the network's behaviour passed in as `net`. -/
def resultados (cells : List String) (net : String → NetResult) :
    Except String (List Linha) :=
  processaLista cells net (cnpjs_unicos cells)

/-- A value `dados` under which the `estabelecimento`/`cidade` chain of
`.get` calls cannot raise: the body is a dict, its `estabelecimento` (when
present) is a dict, and that dict's `cidade` (when present) is a dict. -/
def formaBoa (dados : PyVal) : Bool :=
  match dados with
  | .obj kvs =>
    match kvs.lookup "estabelecimento" with
    | none => true
    | some (.obj ekvs) =>
      (match ekvs.lookup "cidade" with
       | none => true
       | some (.obj _) => true
       | some _ => false)
    | some _ => false
  | _ => false

/-- Key lookup in a value, `none` when the value is not a dict or lacks the
key. -/
def lookupVal (v : PyVal) (k : String) : Option PyVal :=
  match v with
  | .obj kvs => kvs.lookup k
  | _ => none

/-- The municipality as the spec words it: "first attempting a nested
`estabelecimento.cidade.nome` field, falling back to a top-level `municipio`
field, falling back to empty string — first non-empty wins". -/
def municipioSpec (dados : PyVal) : PyVal :=
  let nested := ((lookupVal dados "estabelecimento").bind fun e =>
    (lookupVal e "cidade").bind fun c => lookupVal c "nome").getD (.str "")
  if truthy nested then nested
  else
    let top := (lookupVal dados "municipio").getD (.str "")
    if truthy top then top else .str ""

/-- The three ways an exception with message `e` arises inside the `try` of
`consultar_receita` on input `cnpj`: the network call raises, the `.json()`
parse raises (only reached on status 200), or the field extraction from the
parsed body raises. -/
def lookupRaises (cnpj : String) (net : NetResult) (e : String) : Prop :=
  net = .exn e ∨
  net = .resp ⟨200, .malformado e⟩ ∨
  ∃ dados, net = .resp ⟨200, .parsed dados⟩ ∧ parse200 cnpj dados = .error e

/-! ### Helper lemmas about the reconciliation checks -/

theorem pyAny_ok {α : Type} (g : α → Bool) (l : List α) :
    pyAny (fun a => .ok (g a)) l = .ok (l.any g) := by
  induction l with
  | nil => rfl
  | cons a resto ih =>
    simp only [pyAny, List.any_cons, bind, Except.bind]
    cases h : g a
    · simpa [h] using ih
    · simp [h, pure, Except.pure]

theorem cnpj_confere_str (cells : List String) (c : String) :
    cnpj_confere cells (.str c) =
      .ok (cells.any fun cel => decide (c.data <:+: cel.data)) := by
  unfold cnpj_confere
  exact pyAny_ok (fun cel => decide (c.data <:+: cel.data)) cells

theorem razao_confere_str (cells : List String) (rz : String) :
    razao_confere cells (.str rz) =
      .ok (!rz.isEmpty && cells.any fun cel =>
        decide ((lowerStr rz).data <:+: (lowerStr cel).data)) := by
  have hT : truthy (.str rz) = !rz.isEmpty := rfl
  unfold razao_confere
  cases hE : rz.isEmpty with
  | true => simp [hT, hE, pure, Except.pure]
  | false =>
    rw [hT, hE]
    simp only [Bool.not_false, if_true, Bool.true_and]
    exact pyAny_ok (fun cel => decide ((lowerStr rz).data <:+: (lowerStr cel).data)) cells

theorem municipio_confere_str (cells : List String) (m : String) :
    municipio_confere cells (.str m) =
      .ok (!m.isEmpty && cells.any fun cel =>
        decide ((lowerStr m).data <:+: (lowerStr cel).data)) := by
  have hT : truthy (.str m) = !m.isEmpty := rfl
  unfold municipio_confere
  cases hE : m.isEmpty with
  | true => simp [hT, hE, pure, Except.pure]
  | false =>
    rw [hT, hE]
    simp only [Bool.not_false, if_true, Bool.true_and]
    exact pyAny_ok (fun cel => decide ((lowerStr m).data <:+: (lowerStr cel).data)) cells

theorem pyStr_str (s : String) : pyStr (.str s) = s := rfl

theorem pyStr_pyOr_dash (s : String) :
    pyStr (pyOr (.str s) (.str "-")) = if s.isEmpty then "-" else s := by
  cases hE : s.isEmpty <;> simp [pyOr, truthy, pyStr, hE]

theorem processa_str (cells : List String) (c rz m : String) (sit : PyVal) :
    processa cells ⟨.str c, .str rz, .str m, sit⟩ =
      .ok [⟨"CNPJ: " ++ c,
            if cells.any (fun cel => decide (c.data <:+: cel.data)) then "Sim" else "Não"⟩,
           ⟨"Razão Social: " ++ (if rz.isEmpty then "-" else rz),
            if !rz.isEmpty && cells.any (fun cel =>
              decide ((lowerStr rz).data <:+: (lowerStr cel).data)) then "Sim" else "Não"⟩,
           ⟨"Município: " ++ (if m.isEmpty then "-" else m),
            if !m.isEmpty && cells.any (fun cel =>
              decide ((lowerStr m).data <:+: (lowerStr cel).data)) then "Sim" else "Não"⟩,
           ⟨"Situação Cadastral: " ++ pyStr (pyOr sit (.str "-")), ""⟩] := by
  unfold processa
  dsimp only
  rw [cnpj_confere_str, razao_confere_str, municipio_confere_str]
  simp only [bind, Except.bind, pure, Except.pure]
  rw [pyStr_pyOr_dash, pyStr_pyOr_dash, pyStr_str]

theorem processa_ok_shape (cells : List String) (r : Registro) (ls : List Linha)
    (h : processa cells r = .ok ls) :
    ∃ b0 b1 b2 : Bool,
      cnpj_confere cells r.cnpj = .ok b0 ∧
      razao_confere cells r.razaoSocial = .ok b1 ∧
      municipio_confere cells r.municipio = .ok b2 ∧
      ls = [⟨"CNPJ: " ++ pyStr r.cnpj, if b0 then "Sim" else "Não"⟩,
            ⟨"Razão Social: " ++ pyStr (pyOr r.razaoSocial (.str "-")),
             if b1 then "Sim" else "Não"⟩,
            ⟨"Município: " ++ pyStr (pyOr r.municipio (.str "-")),
             if b2 then "Sim" else "Não"⟩,
            ⟨"Situação Cadastral: " ++ pyStr (pyOr r.situacao (.str "-")), ""⟩] := by
  unfold processa at h
  dsimp only at h
  simp only [bind, Except.bind] at h
  cases h0 : cnpj_confere cells r.cnpj with
  | error e => rw [h0] at h; simp at h
  | ok b0 =>
    rw [h0] at h
    cases h1 : razao_confere cells r.razaoSocial with
    | error e => rw [h1] at h; simp at h
    | ok b1 =>
      rw [h1] at h
      cases h2 : municipio_confere cells r.municipio with
      | error e => rw [h2] at h; simp at h
      | ok b2 =>
        rw [h2] at h
        simp only [pure, Except.pure, Except.ok.injEq] at h
        exact ⟨b0, b1, b2, rfl, rfl, rfl, h.symm⟩

/-! ### Helper lemmas about `consultar_receita` -/

theorem consultar_receita_200 (cnpj : String) (dados : PyVal) :
    consultar_receita cnpj (.resp ⟨200, .parsed dados⟩) =
      match parse200 cnpj dados with
      | .ok reg => reg
      | .error e => erroRegistro cnpj e := by
  simp [consultar_receita]

theorem parse200_obj (cnpj : String) (kvs : List (String × PyVal)) :
    parse200 cnpj (.obj kvs) = (getMunicipio (.obj kvs)).map fun mun =>
      { cnpj := pyOr (.str cnpj) (.str "")
        razaoSocial := pyOr ((kvs.lookup "razao_social").getD (.str "")) (.str "")
        municipio := mun
        situacao := pyOr ((kvs.lookup "descricao_situacao_cadastral").getD
          (.str "Ativo")) (.str "") } := by
  unfold parse200
  cases h : getMunicipio (.obj kvs) <;>
    simp [h, dictGet, bind, Except.bind, Except.map, pure, Except.pure]

theorem pyOr_str_ne (s : String) (h : s ≠ "") (b : PyVal) : pyOr (.str s) b = .str s := by
  have : s.isEmpty = false := by
    cases hE : s.isEmpty
    · rfl
    · exact absurd ((String.isEmpty_iff s).mp hE) h
  simp [pyOr, truthy, this]

theorem parse200_cnpj_field (cnpj : String) (dados : PyVal) (reg : Registro)
    (h : parse200 cnpj dados = .ok reg) : reg.cnpj = pyOr (.str cnpj) (.str "") := by
  unfold parse200 at h
  cases h0 : getMunicipio dados with
  | error e => rw [h0] at h; simp [bind, Except.bind] at h
  | ok mun =>
    rw [h0] at h
    cases h1 : dictGet dados "razao_social" (.str "") with
    | error e => rw [h1] at h; simp [bind, Except.bind] at h
    | ok razao =>
      rw [h1] at h
      cases h2 : dictGet dados "descricao_situacao_cadastral" (.str "Ativo") with
      | error e => rw [h2] at h; simp [bind, Except.bind] at h
      | ok situacao =>
        rw [h2] at h
        simp only [bind, Except.bind, pure, Except.pure, Except.ok.injEq] at h
        rw [← h]

theorem consultar_receita_cnpj_field (cnpj : String) (net : NetResult) (h : cnpj ≠ "") :
    (consultar_receita cnpj net).cnpj = .str cnpj := by
  cases net with
  | exn e => simp [consultar_receita, erroRegistro, pyOr_str_ne cnpj h]
  | resp r =>
    by_cases h200 : r.status_code = 200
    · obtain ⟨st, corpo⟩ := r
      simp only at h200
      subst h200
      cases corpo with
      | malformado e => simp [consultar_receita, erroRegistro, pyOr_str_ne cnpj h]
      | parsed dados =>
        rw [consultar_receita_200]
        cases hp : parse200 cnpj dados with
        | ok reg => rw [parse200_cnpj_field cnpj dados reg hp, pyOr_str_ne cnpj h]
        | error e => simp [erroRegistro, pyOr_str_ne cnpj h]
    · simp [consultar_receita, h200, pyOr_str_ne cnpj h]

/-! ### Helper lemmas about the extraction -/

theorem padraoCNPJ_length : padraoCNPJ.length = 18 := rfl

theorem matchesAt_length_le : ∀ (ps : List (Char → Bool)) (cs : List Char),
    matchesAt ps cs = true → ps.length ≤ cs.length
  | [], _, _ => Nat.zero_le _
  | _ :: _, [], h => by simp [matchesAt] at h
  | p :: ps, c :: cs, h => by
    rw [matchesAt, Bool.and_eq_true] at h
    simpa using matchesAt_length_le ps cs h.2

theorem matchesAt_take : ∀ (ps : List (Char → Bool)) (cs : List Char),
    matchesAt ps cs = true → matchesAt ps (cs.take ps.length) = true
  | [], _, _ => rfl
  | _ :: _, [], h => by simp [matchesAt] at h
  | p :: ps, c :: cs, h => by
    rw [matchesAt, Bool.and_eq_true] at h
    rw [List.length_cons, List.take_succ_cons, matchesAt, Bool.and_eq_true]
    exact ⟨h.1, matchesAt_take ps cs h.2⟩

theorem matchesAt_append : ∀ (ps : List (Char → Bool)) (l t : List Char),
    matchesAt ps l = true → matchesAt ps (l ++ t) = true
  | [], _, _, _ => rfl
  | _ :: _, [], _, h => by simp [matchesAt] at h
  | p :: ps, c :: cs, t, h => by
    rw [matchesAt, Bool.and_eq_true] at h
    rw [List.cons_append, matchesAt, Bool.and_eq_true]
    exact ⟨h.1, matchesAt_append ps cs t h.2⟩

theorem formatoCNPJ_head (l : List Char) (h : matchesAt padraoCNPJ l = true) :
    formatoCNPJ (String.mk (l.take 18)) = true := by
  have h18 : (18 : Nat) ≤ l.length := by
    simpa [padraoCNPJ_length] using matchesAt_length_le padraoCNPJ l h
  have htk := matchesAt_take padraoCNPJ l h
  rw [padraoCNPJ_length] at htk
  rw [formatoCNPJ, Bool.and_eq_true]
  constructor
  · simp [List.length_take, Nat.min_eq_left h18]
  · exact htk

theorem formatoCNPJ_ne_empty (s : String) (h : formatoCNPJ s = true) : s ≠ "" := by
  intro he
  subst he
  simp [formatoCNPJ] at h

theorem findAllAux_sound : ∀ (fuel : Nat) (cs : List Char) (s : String),
    s ∈ findAllAux fuel cs → formatoCNPJ s = true ∧ s.data <:+: cs
  | 0, cs, s => by intro h; simp [findAllAux] at h
  | fuel + 1, [], s => by intro h; simp [findAllAux] at h
  | fuel + 1, c :: resto, s => by
    intro h
    by_cases hm : matchesAt padraoCNPJ (c :: resto) = true
    · rw [findAllAux, if_pos hm] at h
      cases h with
      | head =>
        exact ⟨formatoCNPJ_head (c :: resto) hm,
          (List.take_prefix 18 (c :: resto)).isInfix⟩
      | tail _ h =>
        have ih := findAllAux_sound fuel ((c :: resto).drop 18) s h
        exact ⟨ih.1, ih.2.trans (List.drop_suffix 18 (c :: resto)).isInfix⟩
    · rw [findAllAux, if_neg hm] at h
      have ih := findAllAux_sound fuel resto s h
      exact ⟨ih.1, List.infix_cons ih.2⟩

theorem findAllAux_complete : ∀ (fuel : Nat) (cs : List Char), cs.length ≤ fuel →
    ∀ d : List Char, d <:+: cs → formatoCNPJ (String.mk d) = true →
    findAllAux fuel cs ≠ []
  | 0, cs, hle, d, hinf, hfmt => by
    have : cs = [] := List.length_eq_zero.mp (Nat.le_zero.mp hle)
    subst this
    have : d = [] := List.infix_nil.mp hinf
    subst this
    simp [formatoCNPJ] at hfmt
  | fuel + 1, [], _, d, hinf, hfmt => by
    have : d = [] := List.infix_nil.mp hinf
    subst this
    simp [formatoCNPJ] at hfmt
  | fuel + 1, c :: resto, hle, d, hinf, hfmt => by
    by_cases hm : matchesAt padraoCNPJ (c :: resto) = true
    · rw [findAllAux, if_pos hm]
      simp
    · rw [findAllAux, if_neg hm]
      rw [formatoCNPJ, Bool.and_eq_true] at hfmt
      rcases List.infix_cons_iff.mp hinf with hpre | hinf'
      · exfalso
        obtain ⟨t, ht⟩ := hpre
        rw [← ht] at hm
        exact hm (matchesAt_append padraoCNPJ d t hfmt.2)
      · exact findAllAux_complete fuel resto
          (by simpa using Nat.le_of_succ_le_succ (by simpa using hle))
          d hinf' (by rw [formatoCNPJ, Bool.and_eq_true]; exact hfmt)

theorem EmOrdem.cons_left (c : Char) (cs : List Char) (ms : List String)
    (h : EmOrdem cs ms) : EmOrdem (c :: cs) ms := by
  cases h with
  | nil => exact .nil _
  | cons pre m resto ms h' =>
    have e : c :: (pre ++ m.data ++ resto) = (c :: pre) ++ m.data ++ resto := by simp
    rw [e]
    exact .cons (c :: pre) m resto ms h'

theorem findAllAux_emOrdem : ∀ (fuel : Nat) (cs : List Char),
    EmOrdem cs (findAllAux fuel cs)
  | 0, cs => by rw [findAllAux]; exact .nil cs
  | fuel + 1, [] => by rw [findAllAux]; exact .nil []
  | fuel + 1, c :: resto => by
    by_cases hm : matchesAt padraoCNPJ (c :: resto) = true
    · rw [findAllAux, if_pos hm]
      have h := findAllAux_emOrdem fuel ((c :: resto).drop 18)
      have h2 := EmOrdem.cons [] (String.mk ((c :: resto).take 18))
        ((c :: resto).drop 18) _ h
      simpa [List.take_append_drop] using h2
    · rw [findAllAux, if_neg hm]
      exact EmOrdem.cons_left c resto _ (findAllAux_emOrdem fuel resto)

theorem extrair_cnpj_sound (texto s : String) (h : s ∈ extrair_cnpj texto) :
    formatoCNPJ s = true ∧ s.data <:+: texto.data :=
  findAllAux_sound texto.data.length texto.data s h

theorem mem_cnpjs_unicos (cells : List String) (c : String) (h : c ∈ cnpjs_unicos cells) :
    ∃ cel ∈ cells, c ∈ extrair_cnpj cel := by
  rw [cnpjs_unicos, List.mem_dedup, cnpjs_encontrados, List.mem_flatten] at h
  obtain ⟨l, hl, hc⟩ := h
  rw [List.mem_map] at hl
  obtain ⟨cel, hcel, rfl⟩ := hl
  exact ⟨cel, hcel, hc⟩

/-! ### Helper lemmas about the municipality fallback and the main loop -/

theorem lookupVal_obj (kvs : List (String × PyVal)) (k : String) :
    lookupVal (.obj kvs) k = kvs.lookup k := rfl

theorem dictGet_obj (kvs : List (String × PyVal)) (k : String) (d : PyVal) :
    dictGet (.obj kvs) k d = .ok ((kvs.lookup k).getD d) := rfl

theorem truthy_str_empty : truthy (.str "") = false := rfl

theorem getMunicipio_formaBoa (dados : PyVal) (h : formaBoa dados = true) :
    getMunicipio dados = .ok (municipioSpec dados) := by
  cases dados with
  | obj kvs =>
    cases hest : kvs.lookup "estabelecimento" with
    | none =>
      simp only [getMunicipio, municipioSpec, dictGet_obj, lookupVal_obj, hest,
        List.lookup_nil, Option.getD_none, Option.bind, bind, Except.bind,
        truthy_str_empty, Bool.false_eq_true, if_false, pure, Except.pure]
      cases htop : truthy ((kvs.lookup "municipio").getD (.str "")) <;>
        simp [htop, dictGet, truthy_str_empty]
    | some v =>
      cases v with
      | obj ekvs =>
        cases hcid : ekvs.lookup "cidade" with
        | none =>
          simp only [getMunicipio, municipioSpec, dictGet_obj, lookupVal_obj, hest,
            hcid, List.lookup_nil, Option.getD_some, Option.getD_none, Option.bind,
            bind, Except.bind, truthy_str_empty, Bool.false_eq_true, if_false,
            pure, Except.pure]
          cases htop : truthy ((kvs.lookup "municipio").getD (.str "")) <;>
            simp [htop, dictGet, truthy_str_empty]
        | some w =>
          cases w with
          | obj ckvs =>
            simp only [getMunicipio, municipioSpec, dictGet_obj, lookupVal_obj, hest,
              hcid, Option.getD_some, Option.bind, bind, Except.bind, pure, Except.pure]
            cases hnome : truthy ((ckvs.lookup "nome").getD (.str "")) with
            | true => simp [hnome]
            | false =>
              simp only [hnome, Bool.false_eq_true, if_false]
              cases htop : truthy ((kvs.lookup "municipio").getD (.str "")) <;>
                simp [htop, dictGet, truthy_str_empty]
          | null => simp [formaBoa, hest, hcid] at h
          | str s => simp [formaBoa, hest, hcid] at h
          | num n => simp [formaBoa, hest, hcid] at h
          | bool b => simp [formaBoa, hest, hcid] at h
          | arr xs => simp [formaBoa, hest, hcid] at h
      | null => simp [formaBoa, hest] at h
      | str s => simp [formaBoa, hest] at h
      | num n => simp [formaBoa, hest] at h
      | bool b => simp [formaBoa, hest] at h
      | arr xs => simp [formaBoa, hest] at h
  | null => simp [formaBoa] at h
  | str s => simp [formaBoa] at h
  | num n => simp [formaBoa] at h
  | bool b => simp [formaBoa] at h
  | arr xs => simp [formaBoa] at h

theorem getMunicipio_formaRuim (dados : PyVal) (h : formaBoa dados = false) :
    ∃ e, getMunicipio dados = .error e := by
  cases dados with
  | obj kvs =>
    cases hest : kvs.lookup "estabelecimento" with
    | none => simp [formaBoa, hest] at h
    | some v =>
      cases v with
      | obj ekvs =>
        cases hcid : ekvs.lookup "cidade" with
        | none => simp [formaBoa, hest, hcid] at h
        | some w =>
          cases w with
          | obj ckvs => simp [formaBoa, hest, hcid] at h
          | null =>
            exact ⟨noGetMsg .null, by simp [getMunicipio, dictGet_obj, hest, hcid,
              dictGet, bind, Except.bind]⟩
          | str s =>
            exact ⟨noGetMsg (.str s), by simp [getMunicipio, dictGet_obj, hest, hcid,
              dictGet, bind, Except.bind]⟩
          | num n =>
            exact ⟨noGetMsg (.num n), by simp [getMunicipio, dictGet_obj, hest, hcid,
              dictGet, bind, Except.bind]⟩
          | bool b =>
            exact ⟨noGetMsg (.bool b), by simp [getMunicipio, dictGet_obj, hest, hcid,
              dictGet, bind, Except.bind]⟩
          | arr xs =>
            exact ⟨noGetMsg (.arr xs), by simp [getMunicipio, dictGet_obj, hest, hcid,
              dictGet, bind, Except.bind]⟩
      | null => exact ⟨noGetMsg .null, by simp [getMunicipio, dictGet_obj, hest,
          dictGet, bind, Except.bind]⟩
      | str s => exact ⟨noGetMsg (.str s), by simp [getMunicipio, dictGet_obj, hest,
          dictGet, bind, Except.bind]⟩
      | num n => exact ⟨noGetMsg (.num n), by simp [getMunicipio, dictGet_obj, hest,
          dictGet, bind, Except.bind]⟩
      | bool b => exact ⟨noGetMsg (.bool b), by simp [getMunicipio, dictGet_obj, hest,
          dictGet, bind, Except.bind]⟩
      | arr xs => exact ⟨noGetMsg (.arr xs), by simp [getMunicipio, dictGet_obj, hest,
          dictGet, bind, Except.bind]⟩
  | null => exact ⟨noGetMsg .null, rfl⟩
  | str s => exact ⟨noGetMsg (.str s), rfl⟩
  | num n => exact ⟨noGetMsg (.num n), rfl⟩
  | bool b => exact ⟨noGetMsg (.bool b), rfl⟩
  | arr xs => exact ⟨noGetMsg (.arr xs), rfl⟩

theorem processaLista_blocos (cells : List String) (net : String → NetResult) :
    ∀ (lst : List String) (ls : List Linha), processaLista cells net lst = .ok ls →
    ∃ blocks : List (List Linha), ls = blocks.flatten ∧ blocks.length = lst.length ∧
      ∀ i (hi : i < lst.length) (hb : i < blocks.length),
        processa cells (consultar_receita (lst.get ⟨i, hi⟩) (net (lst.get ⟨i, hi⟩)))
          = .ok (blocks.get ⟨i, hb⟩)
  | [], ls, h => by
    refine ⟨[], ?_, rfl, ?_⟩
    · have : (Except.ok [] : Except String (List Linha)) = .ok ls := h
      simpa using this.symm
    · intro i hi hb
      exact absurd hi (by simp)
  | cnpj :: resto, ls, h => by
    rw [processaLista] at h
    cases h1 : processa cells (consultar_receita cnpj (net cnpj)) with
    | error e => rw [h1] at h; simp [bind, Except.bind] at h
    | ok linhas =>
      rw [h1] at h
      cases h2 : processaLista cells net resto with
      | error e => rw [h2] at h; simp [bind, Except.bind] at h
      | ok demais =>
        rw [h2] at h
        simp only [bind, Except.bind, pure, Except.pure, Except.ok.injEq] at h
        obtain ⟨blocks, hflat, hlen, hblocks⟩ :=
          processaLista_blocos cells net resto demais h2
        refine ⟨linhas :: blocks, ?_, by simp [hlen], ?_⟩
        · rw [← h, hflat, List.flatten_cons]
        · intro i hi hb
          cases i with
          | zero => simpa using h1
          | succ j =>
            have hj : j < resto.length := by simpa using hi
            have hjb : j < blocks.length := by simpa using hb
            simpa using hblocks j hj hjb

theorem if_sim_nao_eq_sim (b : Bool) :
    ((if b then "Sim" else "Não") = "Sim") ↔ b = true := by
  cases b <;> simp

theorem any_true_eq_not_isEmpty {α : Type} (l : List α) :
    (l.any fun _ => true) = !l.isEmpty := by
  cases l <;> rfl

/-! ### The claims -/

/-- C1, counterexample: for the 200-status body
`{"descricao_situacao_cadastral": ""}` — which maps the key to the empty
string — the returned status is `""`, not `"Ativo"` as the claim states:
`dados.get(key, "Ativo") or ""` only applies the `"Ativo"` default when the
key is absent. -/
theorem c1_counterexample :
    (consultar_receita "12.345.678/0001-95"
      (.resp ⟨200, .parsed (.obj [("descricao_situacao_cadastral", .str "")])⟩)).situacao
      ≠ .str "Ativo" := by
  intro h
  have h2 : PyVal.str "" = PyVal.str "Ativo" := h
  have h3 : "" = "Ativo" := PyVal.str.inj h2
  simp at h3

/-- C1, amended: for every 200-status response whose body parses to an
object and whose field extraction succeeds, the status of the returned
record is the literal `"Ativo"` when the key
`descricao_situacao_cadastral` is absent; when the key is present but maps
to the empty string the status is the empty string (not `"Ativo"`). -/
theorem c1_situacao_amended (cnpj : String) (kvs : List (String × PyVal))
    (hok : ∃ reg, parse200 cnpj (.obj kvs) = .ok reg) :
    (kvs.lookup "descricao_situacao_cadastral" = none →
      (consultar_receita cnpj (.resp ⟨200, .parsed (.obj kvs)⟩)).situacao =
        .str "Ativo") ∧
    (kvs.lookup "descricao_situacao_cadastral" = some (.str "") →
      (consultar_receita cnpj (.resp ⟨200, .parsed (.obj kvs)⟩)).situacao =
        .str "") := by
  obtain ⟨reg, hreg⟩ := hok
  rw [parse200_obj] at hreg
  cases hg : getMunicipio (.obj kvs) with
  | error e => rw [hg] at hreg; simp [Except.map] at hreg
  | ok mun =>
    rw [hg] at hreg
    simp only [Except.map, Except.ok.injEq] at hreg
    have hcr : consultar_receita cnpj (.resp ⟨200, .parsed (.obj kvs)⟩) = reg := by
      rw [consultar_receita_200, parse200_obj, hg]
      simp [Except.map, hreg]
    rw [hcr, ← hreg]
    constructor
    · intro hnone
      show pyOr ((kvs.lookup "descricao_situacao_cadastral").getD (.str "Ativo"))
        (.str "") = .str "Ativo"
      rw [hnone]
      rfl
    · intro hsome
      show pyOr ((kvs.lookup "descricao_situacao_cadastral").getD (.str "Ativo"))
        (.str "") = .str ""
      rw [hsome]
      rfl

theorem c1_witness :
    (consultar_receita "12.345.678/0001-95"
      (.resp ⟨200, .parsed (.obj [])⟩)).situacao = .str "Ativo" :=
  (c1_situacao_amended "12.345.678/0001-95" [] ⟨_, rfl⟩).1 rfl

/-- C2, counterexample: with an empty registry identifier and the one-cell
table `["a"]`, the identifier row's verdict is `"Sim"` (the empty needle is
a substring of every cell and `cnpj_confere` has no emptiness guard), not
`"Não"` as the claim demands for all three fields. -/
theorem c2_counterexample :
    processa ["a"] ⟨.str "", .str "", .str "", .str "Ativo"⟩ =
      .ok [⟨"CNPJ: ", "Sim"⟩, ⟨"Razão Social: -", "Não"⟩,
           ⟨"Município: -", "Não"⟩, ⟨"Situação Cadastral: Ativo", ""⟩] := rfl

/-- C2, amended: an empty registry legal name or municipality is reported
as non-matching (`"Não"`) over every cell table; the identifier check has
no emptiness guard, so an empty registry identifier is reported as matching
(`"Sim"`) whenever the table has at least one cell, and as `"Não"` only for
the empty table. -/
theorem c2_amended (cells : List String) (sit : PyVal) :
    razao_confere cells (.str "") = .ok false ∧
    municipio_confere cells (.str "") = .ok false ∧
    cnpj_confere cells (.str "") = .ok (!cells.isEmpty) ∧
    ∃ ls, processa cells ⟨.str "", .str "", .str "", sit⟩ = .ok ls ∧
      ls.map Linha.confere =
        [if cells.isEmpty then "Não" else "Sim", "Não", "Não", ""] := by
  have hE : ("" : String).isEmpty = true := rfl
  have hfun : (fun cel : String => decide (("" : String).data <:+: cel.data)) =
      fun _ : String => true := by
    funext cel
    simp [List.nil_infix]
  refine ⟨?_, ?_, ?_, ?_⟩
  · rw [razao_confere_str]
    simp [hE]
  · rw [municipio_confere_str]
    simp [hE]
  · rw [cnpj_confere_str, hfun, any_true_eq_not_isEmpty]
  · refine ⟨_, processa_str cells "" "" "" sit, ?_⟩
    simp only [List.map, hE, Bool.not_true, Bool.false_and, Bool.false_eq_true,
      if_false, if_true]
    rw [hfun, any_true_eq_not_isEmpty]
    cases hc : cells.isEmpty <;> simp

/-- C3: for a record with string fields whose legal name and municipality
are non-empty, the legal-name row's verdict is `"Sim"` iff the lower-cased
legal name occurs as a substring of the lower-cased text of at least one
cell of the table, and likewise for the municipality row. -/
theorem c3_substring_iff (cells : List String) (c rz m : String) (sit : PyVal)
    (hrz : rz ≠ "") (hm : m ≠ "") :
    ∃ ls, processa cells ⟨.str c, .str rz, .str m, sit⟩ = .ok ls ∧
      ((ls.map Linha.confere)[1]? = some "Sim" ↔
        ∃ cel ∈ cells, (lowerStr rz).data <:+: (lowerStr cel).data) ∧
      ((ls.map Linha.confere)[2]? = some "Sim" ↔
        ∃ cel ∈ cells, (lowerStr m).data <:+: (lowerStr cel).data) := by
  have hrzE : rz.isEmpty = false := by
    cases h : rz.isEmpty
    · rfl
    · exact absurd ((String.isEmpty_iff rz).mp h) hrz
  have hmE : m.isEmpty = false := by
    cases h : m.isEmpty
    · rfl
    · exact absurd ((String.isEmpty_iff m).mp h) hm
  refine ⟨_, processa_str cells c rz m sit, ?_, ?_⟩
  · simp only [List.map, List.getElem?_cons_succ, List.getElem?_cons_zero,
      Option.some.injEq, hrzE, Bool.not_false, Bool.true_and]
    rw [if_sim_nao_eq_sim, List.any_eq_true]
    constructor
    · rintro ⟨cel, hcel, hdec⟩
      exact ⟨cel, hcel, of_decide_eq_true hdec⟩
    · rintro ⟨cel, hcel, hinf⟩
      exact ⟨cel, hcel, decide_eq_true hinf⟩
  · simp only [List.map, List.getElem?_cons_succ, List.getElem?_cons_zero,
      Option.some.injEq, hmE, Bool.not_false, Bool.true_and]
    rw [if_sim_nao_eq_sim, List.any_eq_true]
    constructor
    · rintro ⟨cel, hcel, hdec⟩
      exact ⟨cel, hcel, of_decide_eq_true hdec⟩
    · rintro ⟨cel, hcel, hinf⟩
      exact ⟨cel, hcel, decide_eq_true hinf⟩

theorem c3_witness :
    ∃ ls, processa ["Acme Ltda"]
        ⟨.str "x", .str "ACME LTDA", .str "Lisboa", .str "Ativa"⟩ = .ok ls ∧
      ((ls.map Linha.confere)[1]? = some "Sim" ↔
        ∃ cel ∈ ["Acme Ltda"], (lowerStr "ACME LTDA").data <:+: (lowerStr cel).data) ∧
      ((ls.map Linha.confere)[2]? = some "Sim" ↔
        ∃ cel ∈ ["Acme Ltda"], (lowerStr "Lisboa").data <:+: (lowerStr cel).data) :=
  c3_substring_iff ["Acme Ltda"] "x" "ACME LTDA" "Lisboa" (.str "Ativa")
    (by decide) (by decide)

/-- C4, counterexample: for the 200-status body
`{"estabelecimento": "x", "municipio": "CityA"}` the claim's fallback says
the municipality should be `"CityA"`, but `dados.get("estabelecimento",
{}).get("cidade", {})` raises `AttributeError` on the string value, the
handler produces an error record, and the municipality field is `""`. -/
theorem c4_counterexample :
    (consultar_receita "12.345.678/0001-95"
      (.resp ⟨200, .parsed (.obj [("estabelecimento", .str "x"),
        ("municipio", .str "CityA")])⟩)).municipio ≠ .str "CityA" := by
  intro h
  have h2 : PyVal.str "" = PyVal.str "CityA" := h
  have h3 : "" = "CityA" := PyVal.str.inj h2
  simp at h3

/-- C4, amended: for a 200-status body in which the value at
`estabelecimento` (when present) and that object's `cidade` (when present)
are objects, the municipality of the returned record is the first
non-empty value among `estabelecimento.cidade.nome`, top-level `municipio`
and the empty string; for every other shape the chained `.get` raises, and
the exception handler returns an error record whose municipality is the
empty string and whose status is `"Erro: <message>"`. -/
theorem c4_municipio_amended (cnpj : String) (dados : PyVal) :
    (formaBoa dados = true →
      (consultar_receita cnpj (.resp ⟨200, .parsed dados⟩)).municipio =
        municipioSpec dados) ∧
    (formaBoa dados = false →
      (consultar_receita cnpj (.resp ⟨200, .parsed dados⟩)).municipio = .str "" ∧
      ∃ e, (consultar_receita cnpj (.resp ⟨200, .parsed dados⟩)).situacao =
        .str ("Erro: " ++ e)) := by
  constructor
  · intro h
    cases dados with
    | obj kvs =>
      have hg := getMunicipio_formaBoa (.obj kvs) h
      rw [consultar_receita_200, parse200_obj, hg]
      simp [Except.map]
    | null => simp [formaBoa] at h
    | str s => simp [formaBoa] at h
    | num n => simp [formaBoa] at h
    | bool b => simp [formaBoa] at h
    | arr xs => simp [formaBoa] at h
  · intro h
    obtain ⟨e, hg⟩ := getMunicipio_formaRuim dados h
    have hp : parse200 cnpj dados = .error e := by
      unfold parse200
      rw [hg]
      simp [bind, Except.bind]
    rw [consultar_receita_200, hp]
    exact ⟨rfl, e, rfl⟩

theorem c4_witness :
    ((consultar_receita "x" (.resp ⟨200, .parsed
        (.obj [("municipio", .str "CityA")])⟩)).municipio =
      municipioSpec (.obj [("municipio", .str "CityA")])) ∧
    ((consultar_receita "x" (.resp ⟨200, .parsed
        (.obj [("estabelecimento", .str "e")])⟩)).municipio = .str "" ∧
      ∃ e, (consultar_receita "x" (.resp ⟨200, .parsed
        (.obj [("estabelecimento", .str "e")])⟩)).situacao =
        .str ("Erro: " ++ e)) :=
  ⟨(c4_municipio_amended "x" (.obj [("municipio", .str "CityA")])).1 rfl,
   (c4_municipio_amended "x" (.obj [("estabelecimento", .str "e")])).2 rfl⟩

/-- C5: whenever an exception with message `e` is raised inside the `try`
of `consultar_receita` — by the network call, by `resposta.json()`, or by
the field extraction from the parsed body — the function returns normally
(it is total in the model) with an error record: status exactly
`"Erro: " ++ e`, legal name and municipality empty.  No exception
propagates, so one failing identifier never aborts the loop over the
remaining identifiers. -/
theorem c5_erro_registro (cnpj e : String) (net : NetResult)
    (h : lookupRaises cnpj net e) :
    consultar_receita cnpj net = erroRegistro cnpj e ∧
    (consultar_receita cnpj net).situacao = .str ("Erro: " ++ e) ∧
    (consultar_receita cnpj net).razaoSocial = .str "" ∧
    (consultar_receita cnpj net).municipio = .str "" := by
  have hmain : consultar_receita cnpj net = erroRegistro cnpj e := by
    rcases h with h | h | ⟨dados, hnet, hp⟩
    · rw [h]
      exact rfl
    · rw [h]
      exact rfl
    · rw [hnet, consultar_receita_200, hp]
  refine ⟨hmain, ?_, ?_, ?_⟩ <;> rw [hmain] <;> exact rfl

theorem c5_witness :
    consultar_receita "12.345.678/0001-95" (.exn "timeout") =
      erroRegistro "12.345.678/0001-95" "timeout" ∧
    (consultar_receita "12.345.678/0001-95" (.exn "timeout")).situacao =
      .str ("Erro: " ++ "timeout") ∧
    (consultar_receita "12.345.678/0001-95" (.exn "timeout")).razaoSocial =
      .str "" ∧
    (consultar_receita "12.345.678/0001-95" (.exn "timeout")).municipio =
      .str "" :=
  c5_erro_registro "12.345.678/0001-95" "timeout" (.exn "timeout") (Or.inl rfl)

/-- C6: for every response whose status code is not 200, the returned
record's status is exactly `"Não encontrado na Receita"` and its legal
name and municipality are empty strings. -/
theorem c6_nao_encontrado (cnpj : String) (r : Resposta)
    (h : r.status_code ≠ 200) :
    (consultar_receita cnpj (.resp r)).situacao =
      .str "Não encontrado na Receita" ∧
    (consultar_receita cnpj (.resp r)).razaoSocial = .str "" ∧
    (consultar_receita cnpj (.resp r)).municipio = .str "" := by
  have hmain : consultar_receita cnpj (.resp r) =
      { cnpj := pyOr (.str cnpj) (.str "")
        razaoSocial := .str ""
        municipio := .str ""
        situacao := .str "Não encontrado na Receita" } := by
    simp only [consultar_receita]
    rw [if_neg h]
  exact ⟨by rw [hmain], by rw [hmain], by rw [hmain]⟩

theorem c6_witness :
    (consultar_receita "12.345.678/0001-95"
      (.resp ⟨404, .malformado "m"⟩)).situacao =
      .str "Não encontrado na Receita" ∧
    (consultar_receita "12.345.678/0001-95"
      (.resp ⟨404, .malformado "m"⟩)).razaoSocial = .str "" ∧
    (consultar_receita "12.345.678/0001-95"
      (.resp ⟨404, .malformado "m"⟩)).municipio = .str "" :=
  c6_nao_encontrado "12.345.678/0001-95" ⟨404, .malformado "m"⟩ (by decide)

/-- C7: in the scenario where the table holds the cells
`"12.345.678/0001-95"` and `"Acme Ltda"` and the registry's 200-status body
yields the found record (legal name `"ACME LTDA"`, empty municipality,
status `"Ativa"`), the run emits exactly the four rows
`("CNPJ: 12.345.678/0001-95","Sim")`, `("Razão Social: ACME LTDA","Sim")`,
`("Município: -","Não")`, `("Situação Cadastral: Ativa","")`. -/
theorem c7_cenario :
    resultados ["12.345.678/0001-95", "Acme Ltda"]
      (fun _ => .resp ⟨200, .parsed (.obj
        [("razao_social", .str "ACME LTDA"),
         ("descricao_situacao_cadastral", .str "Ativa")])⟩) =
    .ok [⟨"CNPJ: 12.345.678/0001-95", "Sim"⟩,
         ⟨"Razão Social: ACME LTDA", "Sim"⟩,
         ⟨"Município: -", "Não"⟩,
         ⟨"Situação Cadastral: Ativa", ""⟩] := rfl

/-- C8: whenever the run completes, every processed identifier contributes
exactly four report rows, in the fixed order identifier, legal name,
municipality, status (witnessed by the fixed label prefixes), the status
row's verdict is always the empty string, and the rows of successive
identifiers are concatenated in processing order. -/
theorem c8_quatro_linhas (cells : List String) (net : String → NetResult)
    (ls : List Linha) (h : resultados cells net = .ok ls) :
    ∃ blocks : List (List Linha), ls = blocks.flatten ∧
      blocks.length = (cnpjs_unicos cells).length ∧
      ∀ b ∈ blocks, ∃ l0 l1 l2 l3 : Linha, b = [l0, l1, l2, l3] ∧
        (∃ t, l0.informacao = "CNPJ: " ++ t) ∧
        (∃ t, l1.informacao = "Razão Social: " ++ t) ∧
        (∃ t, l2.informacao = "Município: " ++ t) ∧
        (∃ t, l3.informacao = "Situação Cadastral: " ++ t) ∧
        l3.confere = "" := by
  obtain ⟨blocks, hflat, hlen, hblocks⟩ :=
    processaLista_blocos cells net (cnpjs_unicos cells) ls h
  refine ⟨blocks, hflat, hlen, ?_⟩
  intro b hb
  obtain ⟨⟨i, hib⟩, rfl⟩ := List.mem_iff_get.mp hb
  have hi : i < (cnpjs_unicos cells).length := by omega
  have hp := hblocks i hi hib
  obtain ⟨b0, b1, b2, _, _, _, hshape⟩ := processa_ok_shape _ _ _ hp
  exact ⟨_, _, _, _, hshape, ⟨_, rfl⟩, ⟨_, rfl⟩, ⟨_, rfl⟩, ⟨_, rfl⟩, rfl⟩

theorem c8_witness :
    ∃ blocks : List (List Linha),
      [(⟨"CNPJ: 12.345.678/0001-95", "Sim"⟩ : Linha),
       ⟨"Razão Social: -", "Não"⟩, ⟨"Município: -", "Não"⟩,
       ⟨"Situação Cadastral: Erro: timeout", ""⟩] = blocks.flatten ∧
      blocks.length = (cnpjs_unicos ["12.345.678/0001-95"]).length ∧
      ∀ b ∈ blocks, ∃ l0 l1 l2 l3 : Linha, b = [l0, l1, l2, l3] ∧
        (∃ t, l0.informacao = "CNPJ: " ++ t) ∧
        (∃ t, l1.informacao = "Razão Social: " ++ t) ∧
        (∃ t, l2.informacao = "Município: " ++ t) ∧
        (∃ t, l3.informacao = "Situação Cadastral: " ++ t) ∧
        l3.confere = "" :=
  c8_quatro_linhas ["12.345.678/0001-95"] (fun _ => .exn "timeout") _ rfl

theorem matchesAt_padrao_nil : matchesAt padraoCNPJ [] = false := rfl

theorem matchesAt_boundary (pre resto : List Char) (m : String)
    (hfmt : formatoCNPJ m = true) :
    matchesAt padraoCNPJ ((pre ++ m.data ++ resto).drop pre.length) = true := by
  rw [List.append_assoc, List.drop_left]
  rw [formatoCNPJ, Bool.and_eq_true] at hfmt
  exact matchesAt_append padraoCNPJ m.data resto hfmt.2

theorem formato_data_length (m : String) (hfmt : formatoCNPJ m = true) :
    m.data.length = 18 := by
  rw [formatoCNPJ, Bool.and_eq_true] at hfmt
  simpa using hfmt.1

theorem varredura_cons_left (c : Char) (cs : List Char) (ms : List String)
    (hm : matchesAt padraoCNPJ (c :: cs) = false)
    (h : VarreduraCompleta cs ms) : VarreduraCompleta (c :: cs) ms := by
  cases h with
  | nil _ hno =>
    refine .nil _ ?_
    intro i
    cases i with
    | zero => simpa using hm
    | succ j => simpa using hno j
  | cons pre m resto ms hpre hfmt hrec =>
    have h2 := VarreduraCompleta.cons (c :: pre) m resto ms ?_ hfmt hrec
    · simpa using h2
    · intro i hi
      cases i with
      | zero => simpa using hm
      | succ j =>
        have hj : j < pre.length := by simpa using hi
        simpa using hpre j hj

theorem findAllAux_varredura : ∀ (fuel : Nat) (cs : List Char), cs.length ≤ fuel →
    VarreduraCompleta cs (findAllAux fuel cs)
  | 0, cs, hle => by
    have hnil : cs = [] := List.length_eq_zero.mp (Nat.le_zero.mp hle)
    subst hnil
    exact .nil [] (fun i => by simp [matchesAt_padrao_nil])
  | fuel + 1, [], _ =>
    .nil [] (fun i => by simp [matchesAt_padrao_nil])
  | fuel + 1, c :: resto, hle => by
    by_cases hm : matchesAt padraoCNPJ (c :: resto) = true
    · rw [findAllAux, if_pos hm]
      have hrec := findAllAux_varredura fuel ((c :: resto).drop 18)
        (by simp only [List.length_drop, List.length_cons] at hle ⊢; omega)
      have h2 := VarreduraCompleta.cons [] (String.mk ((c :: resto).take 18))
        ((c :: resto).drop 18) _ (fun i hi => by simp at hi)
        (formatoCNPJ_head _ hm) hrec
      simpa [List.take_append_drop] using h2
    · rw [findAllAux, if_neg hm]
      exact varredura_cons_left c resto _ (by simpa using hm)
        (findAllAux_varredura fuel resto
          (by simpa using Nat.le_of_succ_le_succ (by simpa using hle)))

theorem varredura_nil_nenhum (cs : List Char) (h : VarreduraCompleta cs []) :
    ∀ i, matchesAt padraoCNPJ (cs.drop i) = false := by
  cases h with
  | nil _ hno => exact hno

theorem varredura_cons_inv (cs : List Char) (m : String) (ms : List String)
    (h : VarreduraCompleta cs (m :: ms)) :
    ∃ pre resto, cs = pre ++ m.data ++ resto ∧
      (∀ i, i < pre.length → matchesAt padraoCNPJ (cs.drop i) = false) ∧
      formatoCNPJ m = true ∧ VarreduraCompleta resto ms := by
  cases h with
  | cons pre _ resto _ hpre hfmt hrec => exact ⟨pre, resto, rfl, hpre, hfmt, hrec⟩

/-- The complete-scan relation determines the match list uniquely: two lists
that both scan the same text completely are equal. -/
theorem varredura_unica : ∀ (n : Nat) (cs : List Char), cs.length ≤ n →
    ∀ ms₁ ms₂, VarreduraCompleta cs ms₁ → VarreduraCompleta cs ms₂ →
    ms₁ = ms₂ := by
  intro n
  induction n with
  | zero =>
    intro cs hle ms₁ ms₂ h1 h2
    have hnil : cs = [] := List.length_eq_zero.mp (Nat.le_zero.mp hle)
    subst hnil
    cases ms₁ with
    | nil =>
      cases ms₂ with
      | nil => rfl
      | cons m ms =>
        obtain ⟨pre, resto, hcs, -, hfmt, -⟩ := varredura_cons_inv _ m ms h2
        have h18 := formato_data_length m hfmt
        have hl := congrArg List.length hcs
        simp only [List.length_nil, List.length_append, h18] at hl
        omega
    | cons m ms =>
      obtain ⟨pre, resto, hcs, -, hfmt, -⟩ := varredura_cons_inv _ m ms h1
      have h18 := formato_data_length m hfmt
      have hl := congrArg List.length hcs
      simp only [List.length_nil, List.length_append, h18] at hl
      omega
  | succ n ih =>
    intro cs hle ms₁ ms₂ h1 h2
    cases ms₁ with
    | nil =>
      cases ms₂ with
      | nil => rfl
      | cons m ms =>
        exfalso
        obtain ⟨pre, resto, hcs, -, hfmt, -⟩ := varredura_cons_inv _ m ms h2
        have hb := matchesAt_boundary pre resto m hfmt
        rw [← hcs, varredura_nil_nenhum cs h1 pre.length] at hb
        exact Bool.false_ne_true hb
    | cons m₁ ms₁ =>
      cases ms₂ with
      | nil =>
        exfalso
        obtain ⟨pre, resto, hcs, -, hfmt, -⟩ := varredura_cons_inv _ m₁ ms₁ h1
        have hb := matchesAt_boundary pre resto m₁ hfmt
        rw [← hcs, varredura_nil_nenhum cs h2 pre.length] at hb
        exact Bool.false_ne_true hb
      | cons m₂ ms₂ =>
        obtain ⟨pre₁, resto₁, hcs₁, hpre₁, hfmt₁, hrec₁⟩ :=
          varredura_cons_inv _ m₁ ms₁ h1
        obtain ⟨pre₂, resto₂, hcs₂, hpre₂, hfmt₂, hrec₂⟩ :=
          varredura_cons_inv _ m₂ ms₂ h2
        have h18₁ := formato_data_length m₁ hfmt₁
        have h18₂ := formato_data_length m₂ hfmt₂
        have hlen : pre₁.length = pre₂.length := by
          rcases Nat.lt_trichotomy pre₁.length pre₂.length with hlt | heq | hgt
          · exfalso
            have hb := matchesAt_boundary pre₁ resto₁ m₁ hfmt₁
            rw [← hcs₁, hpre₂ pre₁.length hlt] at hb
            exact Bool.false_ne_true hb
          · exact heq
          · exfalso
            have hb := matchesAt_boundary pre₂ resto₂ m₂ hfmt₂
            rw [← hcs₂, hpre₁ pre₂.length hgt] at hb
            exact Bool.false_ne_true hb
        have heq1 : pre₁ ++ (m₁.data ++ resto₁) = pre₂ ++ (m₂.data ++ resto₂) := by
          rw [← List.append_assoc, ← List.append_assoc, ← hcs₁, ← hcs₂]
        obtain ⟨hpre_eq, hrest⟩ := List.append_inj heq1 hlen
        obtain ⟨hdata, hresto⟩ := List.append_inj hrest (by rw [h18₁, h18₂])
        have hm : m₁ = m₂ := by
          cases m₁
          cases m₂
          exact congrArg String.mk hdata
        subst hm
        subst hresto
        have hlr : resto₁.length ≤ n := by
          have hl := congrArg List.length hcs₁
          simp only [List.length_append, h18₁] at hl
          omega
        rw [ih resto₁ hlr ms₁ ms₂ hrec₁ hrec₂]

/-- C9: `extrair_cnpj` is total (never raises, by construction of the
model); every returned string has exactly the shape `DD.DDD.DDD/DDDD-DD`
and is a substring of the input's text; the returned strings occur in the
input as pairwise disjoint segments in left-to-right order; the output is
the COMPLETE left-to-right non-overlapping scan of the input
(`VarreduraCompleta`: every gap before a listed match and the whole text
after the last one is free of pattern occurrences), and it is the only
list with that property — so exactly the non-overlapping matches are
returned, none omitted; and the result is empty exactly when no substring
of the input matches the pattern. -/
theorem c9_extracao (texto : String) :
    (∀ s ∈ extrair_cnpj texto, formatoCNPJ s = true ∧ s.data <:+: texto.data) ∧
    EmOrdem texto.data (extrair_cnpj texto) ∧
    VarreduraCompleta texto.data (extrair_cnpj texto) ∧
    (∀ ms, VarreduraCompleta texto.data ms → ms = extrair_cnpj texto) ∧
    (extrair_cnpj texto = [] ↔
      ¬ ∃ d : List Char, d <:+: texto.data ∧ formatoCNPJ (String.mk d) = true) := by
  refine ⟨fun s hs => extrair_cnpj_sound texto s hs,
    findAllAux_emOrdem texto.data.length texto.data,
    findAllAux_varredura texto.data.length texto.data (Nat.le_refl _),
    fun ms hms => varredura_unica texto.data.length texto.data (Nat.le_refl _)
      ms (extrair_cnpj texto) hms
      (findAllAux_varredura texto.data.length texto.data (Nat.le_refl _)),
    ?_, ?_⟩
  · intro hE
    rintro ⟨d, hinf, hfmt⟩
    exact findAllAux_complete texto.data.length texto.data (Nat.le_refl _)
      d hinf hfmt hE
  · intro hno
    cases hE : extrair_cnpj texto with
    | nil => rfl
    | cons s rest =>
      exfalso
      have hs : s ∈ extrair_cnpj texto := by
        rw [hE]
        exact List.mem_cons_self s rest
      have hsnd := extrair_cnpj_sound texto s hs
      exact hno ⟨s.data, hsnd.2, hsnd.1⟩

/-- C10: for every completed run, `consultar_receita` returns the input
identifier unchanged in its CNPJ field (for any non-empty identifier, in
all three outcome branches), and every extracted identifier is a substring
of the cell it came from, so the first row of every identifier's block is
exactly `("CNPJ: <identifier>", "Sim")` — the unguarded containment check
always succeeds. -/
theorem c10_cnpj_sim (cells : List String) (net : String → NetResult)
    (ls : List Linha) (h : resultados cells net = .ok ls) :
    (∀ (cnpj : String) (nr : NetResult), cnpj ≠ "" →
      (consultar_receita cnpj nr).cnpj = .str cnpj) ∧
    ∃ blocks : List (List Linha), ls = blocks.flatten ∧
      blocks.length = (cnpjs_unicos cells).length ∧
      ∀ i (hi : i < (cnpjs_unicos cells).length) (hb : i < blocks.length),
        (blocks.get ⟨i, hb⟩).head? =
          some ⟨"CNPJ: " ++ (cnpjs_unicos cells).get ⟨i, hi⟩, "Sim"⟩ := by
  refine ⟨fun cnpj nr hne => consultar_receita_cnpj_field cnpj nr hne, ?_⟩
  obtain ⟨blocks, hflat, hlen, hblocks⟩ :=
    processaLista_blocos cells net (cnpjs_unicos cells) ls h
  refine ⟨blocks, hflat, hlen, ?_⟩
  intro i hi hb
  have hcmem : (cnpjs_unicos cells).get ⟨i, hi⟩ ∈ cnpjs_unicos cells :=
    List.get_mem _ _ hi
  obtain ⟨cel, hcel, hcext⟩ := mem_cnpjs_unicos cells _ hcmem
  have hsnd := extrair_cnpj_sound cel _ hcext
  have hcne : (cnpjs_unicos cells).get ⟨i, hi⟩ ≠ "" :=
    formatoCNPJ_ne_empty _ hsnd.1
  have hrec := consultar_receita_cnpj_field ((cnpjs_unicos cells).get ⟨i, hi⟩)
    (net ((cnpjs_unicos cells).get ⟨i, hi⟩)) hcne
  have hp := hblocks i hi hb
  obtain ⟨b0, b1, b2, hc0, _, _, hshape⟩ := processa_ok_shape _ _ _ hp
  rw [hrec, cnpj_confere_str] at hc0
  have hb0 : b0 = true := by
    have hany : (cells.any fun cel2 =>
        decide (((cnpjs_unicos cells).get ⟨i, hi⟩).data <:+: cel2.data)) = true := by
      rw [List.any_eq_true]
      exact ⟨cel, hcel, decide_eq_true hsnd.2⟩
    have hinj : (cells.any fun cel2 =>
        decide (((cnpjs_unicos cells).get ⟨i, hi⟩).data <:+: cel2.data)) = b0 :=
      Except.ok.inj hc0
    rw [← hinj, hany]
  rw [hshape, hrec, hb0]
  simp [pyStr_str, List.head?]

theorem c10_witness :
    ((∀ (cnpj : String) (nr : NetResult), cnpj ≠ "" →
      (consultar_receita cnpj nr).cnpj = .str cnpj) ∧
    ∃ blocks : List (List Linha),
      [(⟨"CNPJ: 12.345.678/0001-95", "Sim"⟩ : Linha),
       ⟨"Razão Social: -", "Não"⟩, ⟨"Município: -", "Não"⟩,
       ⟨"Situação Cadastral: Erro: falha", ""⟩] = blocks.flatten ∧
      blocks.length = (cnpjs_unicos ["12.345.678/0001-95"]).length ∧
      ∀ i (hi : i < (cnpjs_unicos ["12.345.678/0001-95"]).length)
        (hb : i < blocks.length),
        (blocks.get ⟨i, hb⟩).head? =
          some ⟨"CNPJ: " ++ (cnpjs_unicos ["12.345.678/0001-95"]).get ⟨i, hi⟩,
            "Sim"⟩) :=
  c10_cnpj_sim ["12.345.678/0001-95"] (fun _ => .exn "falha") _ rfl
